import Mathlib

/-!
Shallow embedding of the Fission Ghidra decompiler gRPC server
(ghidra_decompiler/server_main.cc, full version) and of the FFI wrapper's
load images (wrapper.cc).  Machine integers are modelled as Nat with
explicit reduction modulo 2^64 where the C++ uint64_t arithmetic can wrap.
The external Sleigh engine (instruction decoder, architecture
init routine, C printer) is opaque in the source, so it enters the
embedding as explicit oracle parameters.
-/

namespace Fission

/-- Size of the 64-bit machine-word space: uint64_t arithmetic wraps modulo this. -/
def U64 : Nat := 2 ^ 64

/-- Result of one call to the decoder (translate printAssembly) at an address:
captured mnemonic, captured operand body, and the returned int4 length.
The length is an Int because the C++ checks `length <= 0`. -/
structure DecodeResult where
  mnem : String
  body : String
  len : Int
deriving Repr, DecidableEq

/-- Decode oracle: what the external Sleigh translator returns at each address. -/
def DecodeOracle : Type := Nat → DecodeResult

/-- Wire-protocol Instruction message: address, byte length, mnemonic, operand text. -/
structure Instruction where
  address : Nat
  length : Nat
  mnemonic : String
  operands : String
deriving Repr, DecidableEq

instance : Inhabited Instruction := ⟨⟨0, 0, "", ""⟩⟩

/-- Wire-protocol BasicBlock message: id, start address, end address, instructions. -/
structure BasicBlock where
  id : Nat
  start_addr : Nat
  end_addr : Nat
  instructions : List Instruction
deriving Repr, DecidableEq

/-- Boolean test that the list cs starts with the pattern ps (character-wise). -/
def charsStart : List Char → List Char → Bool
  | [], _ => true
  | _ :: _, [] => false
  | p :: ps, c :: cs => p = c && charsStart ps cs

/-- Boolean test that the pattern ps occurs contiguously somewhere in cs. -/
def charsHave (ps : List Char) : List Char → Bool
  | [] => charsStart ps []
  | c :: cs => charsStart ps (c :: cs) || charsHave ps cs

/-- Embedding of the C++ check `emit.mnem.find("RET") != string::npos`:
the mnemonic contains "RET" as a substring. -/
def containsRET (s : String) : Bool := charsHave "RET".toList s.toList

/-- Hard cap on instructions per block (server_main.cc: `const int MAX_INSTRS = 200`). -/
def MAX_INSTRS : Nat := 200

/-- Embedding of the linear-sweep loop of DecompilerServiceImpl::DecompileFunction
(server_main.cc lines 306-329).  `fuel` is MAX_INSTRS minus the current
instr_count, so the loop guard `instr_count < MAX_INSTRS` is `fuel > 0`.
Per iteration: decode at the cursor; stop on `length <= 0` without appending;
append the instruction; stop (without advancing the cursor) when the mnemonic
contains "RET"; otherwise advance the cursor by the length (uint64 wrap) and
continue.  Returns the appended instructions and the final cursor, which the
caller stores as end_addr. -/
def sweepLoop (oracle : DecodeOracle) : Nat → Nat → List Instruction × Nat
  | cur, 0 => ([], cur)
  | cur, fuel + 1 =>
    let r := oracle cur
    if r.len ≤ 0 then ([], cur)
    else
      let instr : Instruction := ⟨cur, r.len.toNat, r.mnem, r.body⟩
      if containsRET r.mnem then ([instr], cur)
      else
        let next := (cur + r.len.toNat) % U64
        let rest := sweepLoop oracle next fuel
        (instr :: rest.1, rest.2)

/-- Embedding of the basic-block construction in DecompileFunction
(server_main.cc lines 300-330): one block, start_addr and id both set to the
function address, instructions and end_addr from the sweep loop. -/
def buildBlock (oracle : DecodeOracle) (addr : Nat) : BasicBlock :=
  let swept := sweepLoop oracle addr MAX_INSTRS
  { id := addr, start_addr := addr, end_addr := swept.2, instructions := swept.1 }

/-- Engine-side memory image (class MemoryLoadImage): the raw byte buffer and
the base virtual address. -/
structure MemoryLoadImage where
  data : List Nat
  base_addr : Nat
deriving Repr, DecidableEq

/-- Embedding of MemoryLoadImage::loadFill (server_main.cc lines 84-96):
for each of the `size` output bytes, compute the byte's uint64 address
`cur = offset + i` (wrapping), compare against `[base_addr, base_addr + |data|)`
where the upper bound is itself computed in wrapping uint64 arithmetic, and
emit the buffer byte inside that window and 0 outside.  Returns the filled
output buffer. -/
def MemoryLoadImage.loadFill (img : MemoryLoadImage) (offset : Nat) (size : Nat) :
    List Nat :=
  (List.range size).map (fun i =>
    let cur := (offset + i) % U64
    let mx := (img.base_addr + img.data.length) % U64
    if img.base_addr ≤ cur ∧ cur < mx then img.data.getD (cur - img.base_addr) 0
    else 0)

/-- FFI-wrapper memory image (class BufferLoadImage in wrapper.cc): byte
buffer and base virtual address. -/
structure BufferLoadImage where
  buffer : List Nat
  base_addr : Nat
deriving Repr, DecidableEq

/-- Embedding of BufferLoadImage::loadFill (wrapper.cc lines 239-256): when the
read's start offset is below the base address the whole output is zero-filled
(early memset return); otherwise each output byte at relative index
`rel_offset + i` (wrapping uint64) is the buffer byte when in bounds, else 0. -/
def BufferLoadImage.loadFill (img : BufferLoadImage) (offset : Nat) (size : Nat) :
    List Nat :=
  if offset < img.base_addr then List.replicate size 0
  else
    let rel := offset - img.base_addr
    (List.range size).map (fun i =>
      let j := (rel + i) % U64
      if j < img.buffer.length then img.buffer.getD j 0 else 0)

/-- Engine-side service state (class DecompilerServiceImpl, server_main.cc
lines 126-131): optional loader, optional architecture (tracked by its
language id), the base address, and the `initialized` flag (named inited
here).  The mutex only serializes calls and carries no data. -/
structure ServerState where
  loader : Option MemoryLoadImage
  arch : Option String
  base_address : Nat
  inited : Bool
deriving Repr, DecidableEq

/-- Fresh service state: no loader, no architecture, flag down. -/
def ServerState.start : ServerState :=
  { loader := none, arch := none, base_address := 0, inited := false }

/-- Embedding of DecompilerServiceImpl::cleanup (server_main.cc lines 185-189):
drops the architecture and the loader and lowers the flag; the base_address
field is left as is. -/
def cleanup (st : ServerState) : ServerState :=
  { st with loader := none, arch := none, inited := false }

/-- LoadBinary request message: binary bytes, base address, language spec.
The sla_path hint field of the proto is unused by this server version. -/
structure LoadBinaryRequest where
  binary_content : List Nat
  base_address : Nat
  arch_spec : String
deriving Repr, DecidableEq

/-- LoadBinary response message. -/
structure LoadBinaryReply where
  success : Bool
  error_message : String
deriving Repr, DecidableEq

/-- Language id actually used (server_main.cc lines 205-208): the request's
arch_spec, or the x86-64 little-endian default when it is empty. -/
def effectiveLang (spec : String) : String :=
  if spec = "" then "x86:LE:64:default" else spec

/-- Embedding of DecompilerServiceImpl::LoadBinary (server_main.cc lines
191-240).  The body first calls cleanup, stores the new base address, builds
the new MemoryLoadImage and ServerArchitecture, then runs the external
`arch->init(store)`; that engine call is the throw site and is passed in as
`initResult` (none = returned normally, some e = threw with message e; the
catch-all clause corresponds to e = "Unknown exception during
initialization").  On a throw the catch block calls cleanup again and answers
success=false with the message; on normal return the flag is raised and the
reply is success=true. -/
def LoadBinary (st : ServerState) (req : LoadBinaryRequest)
    (initResult : Option String) : ServerState × LoadBinaryReply :=
  let st1 := { cleanup st with base_address := req.base_address }
  let st2 := { st1 with
    loader := some ⟨req.binary_content, req.base_address⟩,
    arch := some (effectiveLang req.arch_spec) }
  match initResult with
  | none => ({ st2 with inited := true }, { success := true, error_message := "" })
  | some e => (cleanup st2, { success := false, error_message := e })

/-- DecompileFunction request message. -/
structure DecompileRequest where
  address : Nat
deriving Repr, DecidableEq

/-- DecompileFunction response message. -/
structure DecompileReply where
  success : Bool
  signature : String
  c_code : String
  blocks : List BasicBlock
  error_message : String
deriving Repr, DecidableEq

/-- Hex rendering used for the generated function name (ostringstream with
std::hex). -/
def hexName (n : Nat) : String := String.mk (Nat.toDigits 16 n)

/-- Embedding of DecompilerServiceImpl::DecompileFunction (server_main.cc
lines 242-349) on its non-throwing path.  The guard `!initialized || !arch`
answers success=false / "Binary not loaded" and performs nothing else.
Otherwise the external decompiler actions run and the PrintC output is
captured (opaque engine work, passed in as `ccode`), the reply is marked
successful, and a single basic block built by the linear sweep is attached.
The service state is read-only here and unchanged by the call. -/
def DecompileFunction (st : ServerState) (req : DecompileRequest)
    (oracle : DecodeOracle) (ccode : String) : DecompileReply :=
  if !st.inited || st.arch = none then
    { success := false, signature := "", c_code := "", blocks := [],
      error_message := "Binary not loaded" }
  else
    { success := true
      signature := "func_" ++ hexName req.address ++ "()"
      c_code := ccode
      blocks := [buildBlock oracle req.address]
      error_message := "" }

/-- DisassembleRange response message.  The proto reply the stub returns is
default-valued: empty instruction list, empty error message. -/
structure DisassembleReply where
  instructions : List Instruction
  error_message : String
deriving Repr, DecidableEq

/-- Embedding of DecompilerServiceImpl::DisassembleRange (server_main.cc
lines 351-354): the handler body is only `return Status::OK;`, so every reply
is the default-initialized message regardless of state and arguments. -/
def DisassembleRange (st : ServerState) (startAddr endAddr : Nat) :
    DisassembleReply :=
  { instructions := [], error_message := "" }

/-- Ping response message. -/
structure PingReply where
  alive : Bool
deriving Repr, DecidableEq

/-- Embedding of DecompilerServiceImpl::Ping (server_main.cc lines 356-360):
always answers alive=true, independent of state. -/
def Ping (st : ServerState) : PingReply := { alive := true }

/-! Helper functions used to state and prove the sweep-loop properties. -/

/-- Sum of the byte lengths of a list of instructions. -/
def sumLens (l : List Instruction) : Nat := (l.map Instruction.length).sum

/-- Sum of the byte lengths of all instructions of a block except a trailing
instruction whose mnemonic contains "RET" (the sweep does not advance the
cursor past such an instruction). -/
def sweepSum : List Instruction → Nat
  | [] => 0
  | [i] => if containsRET i.mnemonic then 0 else i.length
  | i :: j :: t => i.length + sweepSum (j :: t)

/-- Boolean predicate: starting from anchor address a, every instruction of
the list sits at the running cursor, which advances by the instruction's
length modulo 2^64. -/
def addrChainB : Nat → List Instruction → Bool
  | _, [] => true
  | a, i :: rest => (i.address == a) && addrChainB ((a + i.length) % U64) rest

/-- One-step unfolding of the sweep loop at positive fuel. -/
theorem sweepLoop_succ (oracle : DecodeOracle) (cur fuel : Nat) :
    sweepLoop oracle cur (fuel + 1) =
      if (oracle cur).len ≤ 0 then ([], cur)
      else if containsRET (oracle cur).mnem then
        ([⟨cur, (oracle cur).len.toNat, (oracle cur).mnem, (oracle cur).body⟩], cur)
      else
        (⟨cur, (oracle cur).len.toNat, (oracle cur).mnem, (oracle cur).body⟩ ::
            (sweepLoop oracle ((cur + (oracle cur).len.toNat) % U64) fuel).1,
          (sweepLoop oracle ((cur + (oracle cur).len.toNat) % U64) fuel).2) := rfl

/-- The sweep appends at most `fuel` instructions. -/
theorem sweepLoop_len_le (oracle : DecodeOracle) :
    ∀ (fuel cur : Nat), (sweepLoop oracle cur fuel).1.length ≤ fuel := by
  intro fuel
  induction fuel with
  | zero => intro cur; simp [sweepLoop]
  | succ n ih =>
    intro cur
    rw [sweepLoop_succ]
    by_cases h1 : (oracle cur).len ≤ 0
    · simp [h1]
    · by_cases h2 : containsRET (oracle cur).mnem
      · simp [h1, h2]
      · simp only [h1, h2, if_false, Bool.false_eq_true, if_neg, List.length_cons]
        exact Nat.succ_le_succ (ih _)

/-- Adding a non-RET instruction in front adds its length to sweepSum. -/
theorem sweepSum_cons (i : Instruction) (l : List Instruction)
    (h : containsRET i.mnemonic = false) :
    sweepSum (i :: l) = i.length + sweepSum l := by
  cases l with
  | nil => simp [sweepSum, h]
  | cons j t => rfl

/-- The final cursor of the sweep is the start cursor plus the lengths of all
appended instructions except a trailing RET one, reduced modulo 2^64. -/
theorem sweepLoop_end (oracle : DecodeOracle) :
    ∀ (fuel cur : Nat), cur < U64 →
      (sweepLoop oracle cur fuel).2 =
        (cur + sweepSum (sweepLoop oracle cur fuel).1) % U64 := by
  intro fuel
  induction fuel with
  | zero =>
    intro cur hcur
    simp [sweepLoop, sweepSum, Nat.mod_eq_of_lt hcur]
  | succ n ih =>
    intro cur hcur
    rw [sweepLoop_succ]
    by_cases h1 : (oracle cur).len ≤ 0
    · simp [h1, sweepSum, Nat.mod_eq_of_lt hcur]
    · by_cases h2 : containsRET (oracle cur).mnem
      · simp [h1, h2, sweepSum, Nat.mod_eq_of_lt hcur]
      · have hnext : (cur + (oracle cur).len.toNat) % U64 < U64 :=
          Nat.mod_lt _ (by decide)
        have hrec := ih ((cur + (oracle cur).len.toNat) % U64) hnext
        simp only [h1, h2, if_false, Bool.false_eq_true, if_neg]
        rw [hrec, sweepSum_cons _ _ (by simpa using h2)]
        rw [Nat.mod_add_mod, Nat.add_assoc]

/-- Every instruction appended by the sweep sits at the running cursor. -/
theorem sweepLoop_chain (oracle : DecodeOracle) :
    ∀ (fuel cur : Nat), addrChainB cur (sweepLoop oracle cur fuel).1 = true := by
  intro fuel
  induction fuel with
  | zero => intro cur; simp [sweepLoop, addrChainB]
  | succ n ih =>
    intro cur
    rw [sweepLoop_succ]
    by_cases h1 : (oracle cur).len ≤ 0
    · simp [h1, addrChainB]
    · by_cases h2 : containsRET (oracle cur).mnem
      · simp [h1, h2, addrChainB]
      · simp only [h1, h2, if_false, Bool.false_eq_true, if_neg, addrChainB]
        simp [ih]

/-- Only the last instruction appended by the sweep can have a mnemonic
containing "RET": every earlier one does not. -/
theorem sweepLoop_ret_last (oracle : DecodeOracle) :
    ∀ (fuel cur k : Nat), k + 1 < (sweepLoop oracle cur fuel).1.length →
      containsRET (((sweepLoop oracle cur fuel).1.getD k default).mnemonic) = false := by
  intro fuel
  induction fuel with
  | zero => intro cur k hk; simp [sweepLoop] at hk
  | succ n ih =>
    intro cur k hk
    rw [sweepLoop_succ] at hk ⊢
    by_cases h1 : (oracle cur).len ≤ 0
    · simp [h1] at hk
    · by_cases h2 : containsRET (oracle cur).mnem
      · simp [h1, h2] at hk
      · simp only [h1, h2, if_false, Bool.false_eq_true, if_neg, List.length_cons] at hk ⊢
        cases k with
        | zero => simpa using h2
        | succ m =>
          rw [List.getD_cons_succ]
          exact ih _ m (by omega)

/-! Concrete decode oracles and service states used by witnesses and
counterexamples. -/

/-- Decode oracle whose every decode is a one-byte RET. -/
def retOracle : DecodeOracle := fun _ => ⟨"RET", "", 1⟩

/-- Decode oracle: one-byte NOP at address 0, one-byte RET everywhere else. -/
def nopRetOracle : DecodeOracle :=
  fun a => if a = 0 then ⟨"NOP", "", 1⟩ else ⟨"RET", "", 1⟩

/-- Decode oracle: two-byte JMP at 0, one-byte NOP at 2, decode failure
(length 0) everywhere else. -/
def jmpOracle : DecodeOracle :=
  fun a => if a = 0 then ⟨"JMP", "", 2⟩ else if a = 2 then ⟨"NOP", "", 1⟩
    else ⟨"", "", 0⟩

/-- Service state after successfully loading a one-byte binary at base 4096
with the default architecture spec. -/
def loadedState : ServerState :=
  (LoadBinary ServerState.start ⟨[195], 4096, ""⟩ none).1

/-! Claim C1. -/

/-- Claim C1, as stated, is false: when the sweep stops on a RET mnemonic it
does not advance the cursor past the RET, so for the oracle that decodes a
one-byte RET at the entry the block holds one instruction of length 1 yet
end_addr equals start_addr, not start_addr + 1. -/
theorem c1_counterexample :
    ¬ ((buildBlock retOracle 0).end_addr =
        (buildBlock retOracle 0).start_addr +
          sumLens (buildBlock retOracle 0).instructions) := by decide

/-- Claim C1 (amended): for every successful DecompileFunction sweep, the
block's end_addr equals start_addr plus the sum of the byte lengths of the
contained instructions, computed modulo 2^64, except that when the sweep was
ended by a RET-containing mnemonic the final RET instruction's length is not
included (end_addr is then the RET's own address); sweepSum is exactly that
selective sum. -/
theorem c1_end_addr_amended (oracle : DecodeOracle) (addr : Nat)
    (h : addr < U64) :
    (buildBlock oracle addr).end_addr =
      ((buildBlock oracle addr).start_addr +
        sweepSum (buildBlock oracle addr).instructions) % U64 := by
  simpa [buildBlock] using sweepLoop_end oracle MAX_INSTRS addr h

/-- Witness for c1_end_addr_amended at the one-byte-RET oracle and address 0. -/
theorem c1_witness :
    (0 : Nat) < U64 ∧
      (buildBlock retOracle 0).end_addr =
        ((buildBlock retOracle 0).start_addr +
          sweepSum (buildBlock retOracle 0).instructions) % U64 :=
  ⟨by decide, c1_end_addr_amended retOracle 0 (by decide)⟩

/-! Claim C2. -/

/-- Claim C2: the sweep loop terminates on every input (it is a total
function by construction, consuming one unit of its MAX_INSTRS budget per
appended instruction), and the block it builds never holds more than the
hard cap of 200 instructions, for every decode oracle, including one that
never fails and never yields a terminating mnemonic. -/
theorem c2_instruction_cap (oracle : DecodeOracle) (addr : Nat) :
    (buildBlock oracle addr).instructions.length ≤ MAX_INSTRS := by
  simpa [buildBlock] using sweepLoop_len_le oracle MAX_INSTRS addr

/-! Claim C7. -/

/-- Claim C7, as stated, is false: an unconditional jump does not stop the
sweep.  For the oracle decoding JMP(2 bytes) at 0, NOP(1 byte) at 2 and
failing afterwards, the block holds the JMP at index 0 followed by the NOP,
so not every RET-or-JMP instruction is the last of its block. -/
theorem c7_counterexample :
    ¬ (∀ k, k < (buildBlock jmpOracle 0).instructions.length →
        (((buildBlock jmpOracle 0).instructions.getD k default).mnemonic = "RET" ∨
          ((buildBlock jmpOracle 0).instructions.getD k default).mnemonic = "JMP") →
        k + 1 = (buildBlock jmpOracle 0).instructions.length) := by decide

/-- Claim C7 (amended): the sweep stops only on mnemonics containing "RET"
(unconditional returns); such an instruction is always the last of its block
and nothing is appended after it, equivalently every non-final instruction
of a built block has a mnemonic not containing "RET".  Unconditional jumps
do not stop the sweep. -/
theorem c7_ret_stop_amended (oracle : DecodeOracle) (addr k : Nat)
    (h : k + 1 < (buildBlock oracle addr).instructions.length) :
    containsRET
      (((buildBlock oracle addr).instructions.getD k default).mnemonic) = false := by
  have := sweepLoop_ret_last oracle MAX_INSTRS addr k
  simp only [buildBlock] at h ⊢
  exact this h

/-- Witness for c7_ret_stop_amended: NOP then RET, the NOP at index 0 is
non-final and indeed contains no "RET". -/
theorem c7_witness :
    0 + 1 < (buildBlock nopRetOracle 0).instructions.length ∧
      containsRET
        (((buildBlock nopRetOracle 0).instructions.getD 0 default).mnemonic) = false :=
  ⟨by decide, c7_ret_stop_amended nopRetOracle 0 0 (by decide)⟩

/-! Claim C4. -/

/-- Claim C4: when the engine initialization throws during LoadBinary the
catch block runs cleanup before answering, so the resulting state carries no
loader, no architecture and a lowered flag (Uninitialized) and the reply is
success=false with the exception's message; when it returns normally the old
session is wholly replaced by the new loader, architecture and base address
and the flag is raised. -/
theorem c4_load_binary_cleanup :
    (∀ (st : ServerState) (req : LoadBinaryRequest) (e : String),
      (LoadBinary st req (some e)).1.loader = none ∧
      (LoadBinary st req (some e)).1.arch = none ∧
      (LoadBinary st req (some e)).1.inited = false ∧
      (LoadBinary st req (some e)).2.success = false ∧
      (LoadBinary st req (some e)).2.error_message = e) ∧
    (∀ (st : ServerState) (req : LoadBinaryRequest),
      (LoadBinary st req none).1.loader =
          some ⟨req.binary_content, req.base_address⟩ ∧
      (LoadBinary st req none).1.arch = some (effectiveLang req.arch_spec) ∧
      (LoadBinary st req none).1.base_address = req.base_address ∧
      (LoadBinary st req none).1.inited = true ∧
      (LoadBinary st req none).2.success = true) := by
  refine ⟨fun st req e => ?_, fun st req => ?_⟩ <;> simp [LoadBinary, cleanup]

/-! Claim C5. -/

/-- Claim C5, as stated, is false on the letter of the message: the server
answers with the message "Binary not loaded" (capital B), not
"binary not loaded", as a DecompileFunction call on the fresh state shows. -/
theorem c5_counterexample :
    ¬ ((DecompileFunction ServerState.start ⟨0⟩ retOracle "").error_message =
        "binary not loaded") := by decide

/-- Claim C5 (amended): every DecompileFunction call made while the engine is
not Loaded (flag down or no architecture) answers success=false with the
error message "Binary not loaded" and performs no analysis: the reply holds
no blocks, no signature and no code, and the handler reads but never writes
the service state. -/
theorem c5_not_loaded_amended (st : ServerState) (req : DecompileRequest)
    (oracle : DecodeOracle) (ccode : String)
    (h : st.inited = false ∨ st.arch = none) :
    (DecompileFunction st req oracle ccode).success = false ∧
    (DecompileFunction st req oracle ccode).error_message = "Binary not loaded" ∧
    (DecompileFunction st req oracle ccode).blocks = [] ∧
    (DecompileFunction st req oracle ccode).signature = "" ∧
    (DecompileFunction st req oracle ccode).c_code = "" := by
  rcases h with h | h <;> simp [DecompileFunction, h]

/-- Witness for c5_not_loaded_amended at the fresh service state. -/
theorem c5_witness :
    (ServerState.start.inited = false ∨ ServerState.start.arch = none) ∧
      (DecompileFunction ServerState.start ⟨0⟩ retOracle "").success = false ∧
      (DecompileFunction ServerState.start ⟨0⟩ retOracle "").error_message =
          "Binary not loaded" ∧
      (DecompileFunction ServerState.start ⟨0⟩ retOracle "").blocks = [] ∧
      (DecompileFunction ServerState.start ⟨0⟩ retOracle "").signature = "" ∧
      (DecompileFunction ServerState.start ⟨0⟩ retOracle "").c_code = "" :=
  ⟨Or.inl rfl, c5_not_loaded_amended ServerState.start ⟨0⟩ retOracle "" (Or.inl rfl)⟩

/-! Claim C6. -/

/-- Claim C6, as stated, is false: LoadBinary never checks binary_content for
emptiness, so with an engine whose initialization returns normally a
zero-length binary loads with success=true. -/
theorem c6_counterexample :
    ¬ ((LoadBinary ServerState.start ⟨[], 0, ""⟩ none).2.success = false) := by
  decide

/-- Claim C6 (amended): a LoadBinary call with empty binary_content fails
exactly when the engine architecture initialization throws — the server has
no emptiness check of its own, so with a non-throwing engine the empty load
succeeds.  When the engine does throw with a (non-empty, LoadError-class)
message, the call answers success=false carrying that non-empty message,
leaves no session loaded, and a subsequent Ping still answers alive=true. -/
theorem c6_empty_load_amended (st : ServerState) (b : Nat) (a e : String)
    (he : e ≠ "") :
    (LoadBinary st ⟨[], b, a⟩ (some e)).2.success = false ∧
    (LoadBinary st ⟨[], b, a⟩ (some e)).2.error_message ≠ "" ∧
    (LoadBinary st ⟨[], b, a⟩ (some e)).1.loader = none ∧
    (LoadBinary st ⟨[], b, a⟩ (some e)).1.arch = none ∧
    (LoadBinary st ⟨[], b, a⟩ (some e)).1.inited = false ∧
    (Ping (LoadBinary st ⟨[], b, a⟩ (some e)).1).alive = true ∧
    (LoadBinary st ⟨[], b, a⟩ none).2.success = true := by
  simp [LoadBinary, cleanup, Ping, he]

/-- Witness for c6_empty_load_amended at the fresh state and the engine
message thrown when no language description matches. -/
theorem c6_witness :
    ("No sleigh specification" : String) ≠ "" ∧
      (LoadBinary ServerState.start ⟨[], 0, ""⟩ (some "No sleigh specification")).2.success
          = false ∧
      (LoadBinary ServerState.start ⟨[], 0, ""⟩ (some "No sleigh specification")).2.error_message
          ≠ "" ∧
      (LoadBinary ServerState.start ⟨[], 0, ""⟩ (some "No sleigh specification")).1.loader
          = none ∧
      (LoadBinary ServerState.start ⟨[], 0, ""⟩ (some "No sleigh specification")).1.arch
          = none ∧
      (LoadBinary ServerState.start ⟨[], 0, ""⟩ (some "No sleigh specification")).1.inited
          = false ∧
      (Ping (LoadBinary ServerState.start ⟨[], 0, ""⟩ (some "No sleigh specification")).1).alive
          = true ∧
      (LoadBinary ServerState.start ⟨[], 0, ""⟩ none).2.success = true :=
  ⟨by decide,
    c6_empty_load_amended ServerState.start 0 "" "No sleigh specification" (by decide)⟩

/-! Claim C8. -/

/-- Claim C8: in every successful DecompileFunction reply the single entry
block's numeric identifier equals its start address, which is the requested
function address. -/
theorem c8_entry_block_id (st : ServerState) (req : DecompileRequest)
    (oracle : DecodeOracle) (ccode : String)
    (h : (DecompileFunction st req oracle ccode).success = true) :
    (DecompileFunction st req oracle ccode).blocks.length = 1 ∧
      ∀ b ∈ (DecompileFunction st req oracle ccode).blocks,
        b.id = b.start_addr ∧ b.start_addr = req.address := by
  by_cases hg : (!st.inited || decide (st.arch = none)) = true
  · simp [DecompileFunction, hg] at h
  · simp [DecompileFunction, hg, buildBlock]

/-- Witness for c8_entry_block_id at a loaded state and the RET oracle. -/
theorem c8_witness :
    (DecompileFunction loadedState ⟨4096⟩ retOracle "").success = true ∧
      (DecompileFunction loadedState ⟨4096⟩ retOracle "").blocks.length = 1 ∧
      ∀ b ∈ (DecompileFunction loadedState ⟨4096⟩ retOracle "").blocks,
        b.id = b.start_addr ∧ b.start_addr = 4096 :=
  ⟨by decide, c8_entry_block_id loadedState ⟨4096⟩ retOracle "" (by decide)⟩

/-! Claim C9. -/

/-- Claim C9 targets an unimplemented handler: DisassembleRange is a stub
whose body is only `return Status::OK;`, so in every state, loaded or not,
the reply is the default message with an empty instruction list and an empty
error message — never the non-empty error message (unloaded case) nor the
instruction sequence covering the range (loaded case) that the claim
describes. -/
theorem c9_disassemble_stub (st : ServerState) (startAddr endAddr : Nat) :
    (DisassembleRange st startAddr endAddr).instructions = [] ∧
      (DisassembleRange st startAddr endAddr).error_message = "" :=
  ⟨rfl, rfl⟩

/-! Claim C10. -/

/-- Claim C10: every successful DecompileFunction reply holds exactly one
basic block; its start_addr is the requested address and its instruction
addresses form a gapless, overlap-free chain: the first instruction sits at
start_addr and each next one at the previous address plus the previous byte
length, modulo 2^64 (addrChainB anchored at start_addr states exactly
this). -/
theorem c10_single_contiguous_block (st : ServerState) (req : DecompileRequest)
    (oracle : DecodeOracle) (ccode : String)
    (h : (DecompileFunction st req oracle ccode).success = true) :
    (DecompileFunction st req oracle ccode).blocks.length = 1 ∧
      ∀ b ∈ (DecompileFunction st req oracle ccode).blocks,
        b.start_addr = req.address ∧
          addrChainB b.start_addr b.instructions = true := by
  by_cases hg : (!st.inited || decide (st.arch = none)) = true
  · simp [DecompileFunction, hg] at h
  · refine ⟨by simp [DecompileFunction, hg], ?_⟩
    intro b hb
    rw [DecompileFunction, if_neg hg] at hb
    simp only [List.mem_singleton] at hb
    subst hb
    exact ⟨rfl, by simpa [buildBlock] using sweepLoop_chain oracle MAX_INSTRS req.address⟩

/-- Witness for c10_single_contiguous_block at a loaded state and the
NOP-then-RET oracle. -/
theorem c10_witness :
    (DecompileFunction loadedState ⟨0⟩ nopRetOracle "").success = true ∧
      (DecompileFunction loadedState ⟨0⟩ nopRetOracle "").blocks.length = 1 ∧
      ∀ b ∈ (DecompileFunction loadedState ⟨0⟩ nopRetOracle "").blocks,
        b.start_addr = 0 ∧ addrChainB b.start_addr b.instructions = true :=
  ⟨by decide, c10_single_contiguous_block loadedState ⟨0⟩ nopRetOracle "" (by decide)⟩

/-! Claim C3. -/

/-- Claim C3, as stated, is false for BufferLoadImage (wrapper.cc): a read
that starts below base_address is wholly zero-filled by the early memset
return, even for bytes whose addresses lie inside the mapped range.  With a
one-byte buffer [7] at base 1, reading 2 bytes from address 0 yields [0, 0],
though the byte at address 1 lies inside [1, 2) and should equal 7. -/
theorem c3_counterexample :
    ¬ (∀ i, i < 2 →
        (BufferLoadImage.loadFill ⟨[7], 1⟩ 0 2).getD i 0 =
          if 1 ≤ 0 + i ∧ 0 + i < 1 + 1 then [7].getD (0 + i - 1) 0 else 0) := by
  decide

/-- Claim C3 (amended): both load images always return exactly the requested
number of bytes (reads never fail).  For MemoryLoadImage (server_main.cc),
whenever the image fits strictly inside the 64-bit address space, each output
byte whose wrapped uint64 address lies inside [base_addr, base_addr + |data|)
equals the corresponding buffer byte and every other byte is zero.  For
BufferLoadImage (wrapper.cc) the same per-byte property holds only for reads
that start at or above base_address (and do not wrap the address space):
reads starting below base_address are wholly zero-filled. -/
theorem c3_load_fill_amended :
    (∀ (m : MemoryLoadImage) (offset size : Nat),
      (m.loadFill offset size).length = size) ∧
    (∀ (bi : BufferLoadImage) (offset size : Nat),
      (bi.loadFill offset size).length = size) ∧
    (∀ (m : MemoryLoadImage) (offset size : Nat),
      m.base_addr + m.data.length < U64 →
      ∀ i, i < size →
        (m.loadFill offset size).getD i 0 =
          if m.base_addr ≤ (offset + i) % U64 ∧
              (offset + i) % U64 < m.base_addr + m.data.length then
            m.data.getD ((offset + i) % U64 - m.base_addr) 0
          else 0) ∧
    (∀ (bi : BufferLoadImage) (offset size : Nat),
      bi.base_addr ≤ offset → offset + size ≤ U64 →
      ∀ i, i < size →
        (bi.loadFill offset size).getD i 0 =
          if bi.base_addr ≤ offset + i ∧
              offset + i < bi.base_addr + bi.buffer.length then
            bi.buffer.getD (offset + i - bi.base_addr) 0
          else 0) := by
  refine ⟨fun m offset size => ?_, fun bi offset size => ?_,
    fun m offset size hfit i hi => ?_, fun bi offset size hbase hwrap i hi => ?_⟩
  · simp [MemoryLoadImage.loadFill]
  · unfold BufferLoadImage.loadFill
    split <;> simp
  · have hmx : (m.base_addr + m.data.length) % U64 = m.base_addr + m.data.length :=
      Nat.mod_eq_of_lt hfit
    simp only [MemoryLoadImage.loadFill]
    rw [List.getD_eq_getElem?_getD, List.getElem?_map, List.getElem?_range hi]
    simp [hmx]
  · have hne : ¬ offset < bi.base_addr := not_lt.mpr hbase
    have hlt : offset + i < U64 := by omega
    have hrel : (offset - bi.base_addr + i) % U64 = offset + i - bi.base_addr := by
      rw [Nat.mod_eq_of_lt (by omega)]
      omega
    simp only [BufferLoadImage.loadFill, if_neg hne]
    rw [List.getD_eq_getElem?_getD, List.getElem?_map, List.getElem?_range hi]
    simp only [Option.map_some', Option.getD_some, hrel]
    by_cases hin : offset + i - bi.base_addr < bi.buffer.length
    · rw [if_pos hin, if_pos (by omega)]
    · rw [if_neg hin, if_neg (by omega)]

/-- Witness for c3_load_fill_amended: a two-byte image [7, 8] at base 1 read
from address 0 over 4 bytes yields [0, 7, 8, 0], and the buffer image [7] at
base 1 read from address 1 yields its byte. -/
theorem c3_witness :
    ((1 : Nat) + 2 < U64 ∧
      (MemoryLoadImage.loadFill ⟨[7, 8], 1⟩ 0 4).getD 1 0 =
        if 1 ≤ (0 + 1) % U64 ∧ (0 + 1) % U64 < 1 + 2 then
          [7, 8].getD ((0 + 1) % U64 - 1) 0
        else 0) ∧
      ((1 : Nat) ≤ 1 ∧ 1 + 2 ≤ U64 ∧
        (BufferLoadImage.loadFill ⟨[7], 1⟩ 1 2).getD 0 0 =
          if 1 ≤ 1 + 0 ∧ 1 + 0 < 1 + 1 then [7].getD (1 + 0 - 1) 0 else 0) :=
  ⟨⟨by decide, c3_load_fill_amended.2.2.1 ⟨[7, 8], 1⟩ 0 4 (by decide) 1 (by decide)⟩,
    ⟨le_refl 1, by decide,
      c3_load_fill_amended.2.2.2 ⟨[7], 1⟩ 1 2 (le_refl 1) (by decide) 0 (by decide)⟩⟩

end Fission
